import Mathlib

/-!
# Carbon-Footprint-Calculator: the staging list and the calculation gateway

A shallow embedding of `src/App.js` (the React component `App`): its state
cells, the catalog `activityOptions`, the handlers `handleAddActivity`,
`removeActivity`, `calculateEmissions` and the inline `onChange` handlers of
the form, together with the ECMAScript built-ins these call
(`parseFloat`, `Array.prototype.splice`, `Array.prototype.find`,
`JSON.parse`, `ToBoolean`, `ToString`).

Conventions.
* A JavaScript string is a Lean `String`.
* A JavaScript number is a `JSNumber`: `NaN`, the two infinities, or a finite
  double given by its exact rational value (`-0` is identified with `0`).
  Decimal literals are rounded to the nearest double, ties to even.
* A handler that throws leaves the state as it was when it threw and reports
  the error next to it.
-/

namespace CarbonFootprint

/-! ## ECMAScript numbers -/

/-- A Number value: `NaN`, `+Infinity`, `-Infinity`, or a finite double,
given by its exact value. -/
inductive JSNumber where
  | nan
  | posInf
  | negInf
  | finite (q : ℚ)
  deriving DecidableEq, Repr

/-- Number.isFinite. -/
def JSNumber.isFinite : JSNumber → Bool
  | .finite _ => true
  | _ => false

/-- Unary minus on Number values. -/
def JSNumber.neg : JSNumber → JSNumber
  | .nan => .nan
  | .posInf => .negInf
  | .negInf => .posInf
  | .finite q => .finite (-q)

/-- Worker of `floorLog2`: halve until below 2. -/
def floorLog2Aux : Nat → Nat → Nat
  | 0, _ => 0
  | fuel + 1, n => if n < 2 then 0 else floorLog2Aux fuel (n / 2) + 1

/-- The integer part of the base-2 logarithm of `n` (0 for `n = 0`). -/
def floorLog2 (n : Nat) : Nat := floorLog2Aux n n

/-- Whether `d * 2^e ≤ n`, for an integer exponent `e`. -/
def scaledLe (d : Nat) (e : Int) (n : Nat) : Bool :=
  if 0 ≤ e then decide (d * 2 ^ e.toNat ≤ n) else decide (d ≤ n * 2 ^ (-e).toNat)

/-- The binade of the positive rational `n / d`: the `e` with
`2^e ≤ n / d < 2^(e+1)`. -/
def binade (n d : Nat) : Int :=
  let e0 : Int := (floorLog2 n : Int) - (floorLog2 d : Int)
  if scaledLe d e0 n then e0 else e0 - 1

/-- The integer nearest to `a / b`, ties to the even one. -/
def roundHalfEven (a b : Nat) : Nat :=
  let q := a / b
  let r := a % b
  if 2 * r < b then q else if b < 2 * r then q + 1 else q + q % 2

/-- The double nearest to the non-negative rational `n / d` (IEEE 754
binary64, round to nearest, ties to even): 53 significant bits `m` at the
exponent `p ≥ -1074`, and `+Infinity` once `m * 2^p` reaches `2^1024`, that
is in a binade from 1024 on or when the rounding carries out of binade 1023. -/
def roundToDouble (n d : Nat) : JSNumber :=
  if n = 0 then .finite 0
  else
    let e := binade n d
    let p : Int := max e (-1022) - 52
    let m := roundHalfEven (n * 2 ^ (-p).toNat) (d * 2 ^ p.toNat)
    if 1024 ≤ e ∨ (p = 971 ∧ m = 2 ^ 53) then .posInf
    else .finite (mkRat (m * 2 ^ p.toNat : Nat) (2 ^ (-p).toNat))

/-! ## Numeric literals: `parseFloat` -/

/-- The value of a decimal digit character. -/
def digitVal (c : Char) : Nat := c.toNat - 48

/-- The value of a run of decimal digits. -/
def digitsToNat (ds : List Char) : Nat :=
  ds.foldl (fun acc c => 10 * acc + digitVal c) 0

/-- WhiteSpace and LineTerminator code points, the ones `TrimString` strips. -/
def isJSWhiteSpace (c : Char) : Bool :=
  let n := c.toNat
  n = 0x9 || n = 0xA || n = 0xB || n = 0xC || n = 0xD || n = 0x20 || n = 0xA0
    || n = 0x1680 || (0x2000 ≤ n && n ≤ 0x200A) || n = 0x2028 || n = 0x2029
    || n = 0x202F || n = 0x205F || n = 0x3000 || n = 0xFEFF

/-- The value `digits × 10^exp10` as a double. -/
def decimalToDouble (digits : Nat) (exp10 : Int) : JSNumber :=
  roundToDouble (digits * 10 ^ exp10.toNat) (10 ^ (-exp10).toNat)

/-- An ExponentPart at the head of the input, if there is one: the exponent
and the rest. `e` or `E`, an optional sign, at least one digit. -/
def exponentPart (cs : List Char) : Option (Int × List Char) :=
  match cs with
  | c :: rest =>
    if c = 'e' ∨ c = 'E' then
      let (negative, rest1) :=
        match rest with
        | '+' :: t => (false, t)
        | '-' :: t => (true, t)
        | _ => (false, rest)
      let ds := rest1.takeWhile Char.isDigit
      if ds = [] then none
      else
        let v : Int := digitsToNat ds
        some (if negative then -v else v, rest1.dropWhile Char.isDigit)
    else none
  | [] => none

/-- The longest StrUnsignedDecimalLiteral at the head of the input, as a
Number; `NaN` when there is none. -/
def unsignedDecimalLiteral (cs : List Char) : JSNumber :=
  if "Infinity".toList.isPrefixOf cs then .posInf
  else
    let intDigits := cs.takeWhile Char.isDigit
    let rest := cs.dropWhile Char.isDigit
    let (fracDigits, rest1) :=
      match rest with
      | '.' :: t => (t.takeWhile Char.isDigit, t.dropWhile Char.isDigit)
      | _ => ([], rest)
    if intDigits = [] ∧ fracDigits = [] then .nan
    else
      let exp : Int := match exponentPart rest1 with
        | some (e, _) => e
        | none => 0
      decimalToDouble (digitsToNat (intDigits ++ fracDigits)) (exp - fracDigits.length)

/-- The global `parseFloat`, on a string: leading white space is skipped, the
longest decimal literal at the head is read, anything after it is ignored;
`NaN` when no literal starts there. -/
def parseFloat (input : String) : JSNumber :=
  match input.toList.dropWhile isJSWhiteSpace with
  | '+' :: rest => unsignedDecimalLiteral rest
  | '-' :: rest => (unsignedDecimalLiteral rest).neg
  | trimmed => unsignedDecimalLiteral trimmed

/-! ## `Number::toString` -/

/-- The number of decimal digits of `n`. -/
def decimalLength (n : Nat) : Nat := (Nat.toDigits 10 n).length

/-- The decimal position of the positive rational `a / b`: the `n` with
`10^(n-1) ≤ a / b < 10^n`. -/
def decimalPosition (a b : Nat) : Int :=
  let n0 : Int := (decimalLength a : Int) - (decimalLength b : Int)
  let below : Bool :=
    if 0 ≤ n0 then decide (a < b * 10 ^ n0.toNat) else decide (a * 10 ^ (-n0).toNat < b)
  if below then n0 else n0 + 1

/-- The `k`-digit significand `s` with `s × 10^(n-k)` a decimal that reads
back as the double `q = a / b`, if there is one: of the two neighbours of `q`
the one that reads back, the nearer when both do, the even one on a tie. -/
def significandOfLength (a b : Nat) (n : Int) (k : Nat) : Option Nat :=
  let t : Int := n - k
  let num := a * 10 ^ (-t).toNat
  let den := b * 10 ^ t.toNat
  let lo := num / den
  let r := num % den
  let hi := lo + 1
  let readsBack (s : Nat) : Bool :=
    decide (decimalToDouble s t = .finite (mkRat a b))
  let preferLo : Bool := decide (2 * r < den) || (decide (2 * r = den) && lo % 2 == 0)
  match readsBack lo, readsBack hi with
  | true, true => some (if preferLo then lo else hi)
  | true, false => some lo
  | false, true => some hi
  | false, false => none

/-- The digits and the decimal position that `Number::toString` prints for the
positive double `a / b`: the shortest significand that reads back, at most 17
digits. -/
def shortestDecimal (a b : Nat) : Nat × Int :=
  let n := decimalPosition a b
  let found := (List.range 17).findSome? fun i =>
    (significandOfLength a b n (i + 1)).map fun s => (s, i + 1)
  let (s, k) := found.getD (roundHalfEven (a * 10 ^ (17 - n).toNat) (b * 10 ^ (n - 17).toNat), 17)
  if s = 10 ^ k then (10 ^ (k - 1), n + 1) else (s, n)

/-- The text of `Number::toString` for the significand `s` at decimal
position `n`: plain digits, a decimal point, or the exponent form. -/
def formatDecimal (s : Nat) (n : Int) : String :=
  let ds := Nat.toDigits 10 s
  let k : Int := ds.length
  if k ≤ n ∧ n ≤ 21 then
    String.mk (ds ++ List.replicate (n - k).toNat '0')
  else if 0 < n ∧ n ≤ 21 then
    String.mk (ds.take n.toNat ++ '.' :: ds.drop n.toNat)
  else if -6 < n ∧ n ≤ 0 then
    String.mk ('0' :: '.' :: List.replicate (-n).toNat '0' ++ ds)
  else
    let e := n - 1
    let mantissa := match ds with
      | [d] => [d]
      | d :: rest => d :: '.' :: rest
      | [] => []
    String.mk mantissa ++ "e" ++ (if e < 0 then "-" else "+") ++ toString e.natAbs

/-- The abstract operation `Number::toString` (radix 10). -/
def numberToString : JSNumber → String
  | .nan => "NaN"
  | .posInf => "Infinity"
  | .negInf => "-Infinity"
  | .finite q =>
    if q = 0 then "0"
    else
      let (s, n) := shortestDecimal q.num.natAbs q.den
      (if q < 0 then "-" else "") ++ formatDecimal s n

/-! ## ECMAScript values and errors -/

/-- A value as `JSON.parse` can return it, and `undefined`. An object is the
list of its own properties, in the order the text first names them. -/
inductive JSValue where
  | undefined
  | null
  | bool (b : Bool)
  | number (n : JSNumber)
  | string (s : String)
  | array (items : List JSValue)
  | object (props : List (String × JSValue))
  deriving Repr

/-- A thrown Error object: its constructor's name and its `message`. -/
structure JSError where
  name : String
  message : String
  deriving DecidableEq, Repr

/-- A TypeError property read of `undefined` or `null`. -/
def typeErrorReading (base property : String) : JSError :=
  { name := "TypeError",
    message := "Cannot read properties of " ++ base ++ " (reading \x27" ++ property ++ "\x27)" }

/-- The SyntaxError of `JSON.parse`. The wording of its message is the
engine's; the model fixes one. -/
def jsonSyntaxError : JSError :=
  { name := "SyntaxError", message := "Unexpected token in JSON" }

/-- The TypeError of `ToPrimitive` on an object with no usable `toString` or
`valueOf`. -/
def toPrimitiveError : JSError :=
  { name := "TypeError", message := "Cannot convert object to primitive value" }

/-- CreateDataProperty on a list of own properties: an existing key keeps its
place and takes the new value, a new key goes last. -/
def setProperty {α : Type} : List (String × α) → String → α → List (String × α)
  | [], k, v => [(k, v)]
  | (k0, v0) :: rest, k, v =>
    if k0 = k then (k0, v) :: rest else (k0, v0) :: setProperty rest k v

/-- The value of an own property, if the key is there. -/
def getOwnProperty {α : Type} : List (String × α) → String → Option α
  | [], _ => none
  | (k0, v0) :: rest, k => if k0 = k then some v0 else getOwnProperty rest k

/-- ToBoolean. -/
def toBoolean : JSValue → Bool
  | .undefined => false
  | .null => false
  | .bool b => b
  | .number n => match n with
    | .nan => false
    | .finite q => decide (q ≠ 0)
    | _ => true
  | .string s => decide (s ≠ "")
  | .array _ => true
  | .object _ => true

/-! ## `JSON.parse` -/

/-- JSON white space: tab, line feed, carriage return, space. -/
def isJSONWhiteSpace (c : Char) : Bool :=
  c = '\t' || c = '\n' || c = '\r' || c = ' '

/-- Drop leading JSON white space. -/
def skipWs (cs : List Char) : List Char := cs.dropWhile isJSONWhiteSpace

/-- The value of a hexadecimal digit, if it is one. -/
def hexVal (c : Char) : Option Nat :=
  if c.isDigit then some (c.toNat - 48)
  else if 'a'.toNat ≤ c.toNat ∧ c.toNat ≤ 'f'.toNat then some (c.toNat - 87)
  else if 'A'.toNat ≤ c.toNat ∧ c.toNat ≤ 'F'.toNat then some (c.toNat - 55)
  else none

/-- The code unit written by the four hexadecimal digits of a `\u` escape. -/
def hex4 (a b c d : Char) : Option Nat :=
  match hexVal a, hexVal b, hexVal c, hexVal d with
  | some x, some y, some z, some w => some (((x * 16 + y) * 16 + z) * 16 + w)
  | _, _, _, _ => none

/-- The rest of a JSON string after its opening quote: the UTF-16 code units
(a character outside the escapes stands as its code point) up to the closing
quote, escapes decoded, and what follows. -/
def parseStringBody : List Char → List Nat → Option (List Nat × List Char)
  | [], _ => none
  | '"' :: rest, acc => some (acc, rest)
  | '\\' :: 'u' :: a :: b :: c :: d :: rest, acc =>
    match hex4 a b c d with
    | none => none
    | some unit => parseStringBody rest (acc ++ [unit])
  | '\\' :: e :: rest, acc =>
    match e with
    | '"' => parseStringBody rest (acc ++ ['"'.toNat])
    | '\\' => parseStringBody rest (acc ++ ['\\'.toNat])
    | '/' => parseStringBody rest (acc ++ ['/'.toNat])
    | 'b' => parseStringBody rest (acc ++ [8])
    | 'f' => parseStringBody rest (acc ++ [12])
    | 'n' => parseStringBody rest (acc ++ ['\n'.toNat])
    | 'r' => parseStringBody rest (acc ++ ['\r'.toNat])
    | 't' => parseStringBody rest (acc ++ ['\t'.toNat])
    | _ => none
  | c :: rest, acc =>
    if c.toNat < 0x20 ∨ c = '\\' then none else parseStringBody rest (acc ++ [c.toNat])

/-- The characters of a sequence of code units: a leading surrogate directly
followed by a trailing one is the code point of the pair; a surrogate on its
own, which a Lean `String` cannot hold, is kept as U+FFFD. -/
def decodeUnits : List Nat → List Char
  | [] => []
  | [u] => [if 0xD800 ≤ u ∧ u ≤ 0xDFFF then Char.ofNat 0xFFFD else Char.ofNat u]
  | hi :: lo :: rest =>
    if 0xD800 ≤ hi ∧ hi ≤ 0xDBFF ∧ 0xDC00 ≤ lo ∧ lo ≤ 0xDFFF then
      Char.ofNat (0x10000 + (hi - 0xD800) * 0x400 + (lo - 0xDC00)) :: decodeUnits rest
    else
      (if 0xD800 ≤ hi ∧ hi ≤ 0xDFFF then Char.ofNat 0xFFFD else Char.ofNat hi)
        :: decodeUnits (lo :: rest)

/-- A JSON string after its opening quote: its value and what follows. -/
def parseJSONString (cs : List Char) : Option (String × List Char) :=
  match parseStringBody cs [] with
  | some (units, rest) => some (String.mk (decodeUnits units), rest)
  | none => none

/-- A JSON number at the head of the input and what follows: an optional
minus, an integer part with no leading zero, an optional fraction, an
optional exponent. -/
def parseJSONNumber (cs : List Char) : Option (JSNumber × List Char) :=
  let (negative, cs1) := match cs with
    | '-' :: t => (true, t)
    | _ => (false, cs)
  let intDigits := match cs1 with
    | '0' :: _ => ['0']
    | _ => cs1.takeWhile Char.isDigit
  if intDigits = [] then none
  else
    let rest := cs1.drop intDigits.length
    let frac : Option (List Char × List Char) := match rest with
      | '.' :: t =>
        if t.takeWhile Char.isDigit = [] then none
        else some (t.takeWhile Char.isDigit, t.dropWhile Char.isDigit)
      | _ => some ([], rest)
    match frac with
    | none => none
    | some (fracDigits, rest1) =>
      let exp : Option (Int × List Char) := match rest1 with
        | c :: _ =>
          if c = 'e' ∨ c = 'E' then exponentPart rest1 else some (0, rest1)
        | [] => some (0, rest1)
      match exp with
      | none => none
      | some (e, rest2) =>
        let v := decimalToDouble (digitsToNat (intDigits ++ fracDigits)) (e - fracDigits.length)
        some (if negative then v.neg else v, rest2)

mutual
/-- A JSON value at the head of the input (no leading white space) and what
follows it. The fuel bounds the depth of the recursion. -/
def parseValue : Nat → List Char → Option (JSValue × List Char)
  | 0, _ => none
  | _ + 1, [] => none
  | fuel + 1, c :: t =>
    if c = '"' then
      match parseJSONString t with
      | some (s, rest) => some (.string s, rest)
      | none => none
    else if c = '[' then
      match skipWs t with
      | ']' :: rest => some (.array [], rest)
      | t1 => parseElements fuel t1 []
    else if c = '{' then
      match skipWs t with
      | '}' :: rest => some (.object [], rest)
      | t1 => parseMembers fuel t1 []
    else if "null".toList.isPrefixOf (c :: t) then some (.null, t.drop 3)
    else if "true".toList.isPrefixOf (c :: t) then some (.bool true, t.drop 3)
    else if "false".toList.isPrefixOf (c :: t) then some (.bool false, t.drop 4)
    else
      match parseJSONNumber (c :: t) with
      | some (n, rest) => some (.number n, rest)
      | none => none
/-- The elements of a JSON array from its next element on, up to the closing
bracket. -/
def parseElements : Nat → List Char → List JSValue → Option (JSValue × List Char)
  | 0, _, _ => none
  | fuel + 1, cs, acc =>
    match parseValue fuel cs with
    | none => none
    | some (v, rest) =>
      match skipWs rest with
      | ',' :: rest1 => parseElements fuel (skipWs rest1) (acc ++ [v])
      | ']' :: rest1 => some (.array (acc ++ [v]), rest1)
      | _ => none
/-- The members of a JSON object from its next member on, up to the closing
brace. A repeated key keeps its first place and takes the last value. -/
def parseMembers : Nat → List Char → List (String × JSValue) → Option (JSValue × List Char)
  | 0, _, _ => none
  | _ + 1, [], _ => none
  | fuel + 1, c :: t, acc =>
    if c = '"' then
      match parseJSONString t with
      | none => none
      | some (key, rest) =>
        match skipWs rest with
        | ':' :: rest1 =>
          match parseValue fuel (skipWs rest1) with
          | none => none
          | some (v, rest2) =>
            match skipWs rest2 with
            | ',' :: rest3 => parseMembers fuel (skipWs rest3) (setProperty acc key v)
            | '}' :: rest3 => some (.object (setProperty acc key v), rest3)
            | _ => none
        | _ => none
    else none
end

/-- The function `JSON.parse` (no reviver): the value the text denotes, or a
SyntaxError when the text is not one JSON value between optional white
space. -/
def JSON.parse (text : String) : Except JSError JSValue :=
  match parseValue (2 * text.length + 2) (skipWs text.toList) with
  | some (v, rest) => if skipWs rest = [] then .ok v else .error jsonSyntaxError
  | none => .error jsonSyntaxError

/-! ## `ToString` -/

mutual
/-- The abstract operation ToString on a value `JSON.parse` can return. An
array prints through `Array.prototype.join`; an object prints as
`[object Object]` through `Object.prototype.toString`, unless an own property
`toString` (never callable in a parsed value) hides it, and then ToPrimitive
throws a TypeError. -/
def toStringJS : JSValue → Except JSError String
  | .undefined => .ok "undefined"
  | .null => .ok "null"
  | .bool b => .ok (if b then "true" else "false")
  | .number n => .ok (numberToString n)
  | .string s => .ok s
  | .array items =>
    match itemTexts items with
    | .error e => .error e
    | .ok texts => .ok (String.intercalate "," texts)
  | .object props =>
    match getOwnProperty props "toString" with
    | some _ => .error toPrimitiveError
    | none => .ok "[object Object]"
/-- The texts of the elements of an array under `Array.prototype.join`:
`undefined` and `null` elements print as nothing. -/
def itemTexts : List JSValue → Except JSError (List String)
  | [] => .ok []
  | v :: rest =>
    let text : Except JSError String := match v with
      | .undefined => .ok ""
      | .null => .ok ""
      | .bool b => toStringJS (.bool b)
      | .number n => toStringJS (.number n)
      | .string s => toStringJS (.string s)
      | .array items => toStringJS (.array items)
      | .object props => toStringJS (.object props)
    match text with
    | .error e => .error e
    | .ok s =>
      match itemTexts rest with
      | .error e => .error e
      | .ok texts => .ok (s :: texts)
end

/-! ## `Array.prototype.splice` -/

/-- The method `splice(start, deleteCount)` with no items to insert: the
removed elements and the array as it is left. A negative `start` counts from
the end; `start` is clamped into `0 .. length` and `deleteCount` into what is
left from there. -/
def splice {α : Type} (xs : List α) (start deleteCount : Int) : List α × List α :=
  let len : Int := xs.length
  let actualStart : Int := if start < 0 then max (len + start) 0 else min start len
  let actualDeleteCount : Int := min (max deleteCount 0) (len - actualStart)
  let k := actualStart.toNat
  let d := actualDeleteCount.toNat
  ((xs.drop k).take d, xs.take k ++ xs.drop (k + d))

/-! ## The component `App`: data -/

/-- An entry of the catalog `activityOptions`. -/
structure ActivityOption where
  id : String
  label : String
  units : List String
  deriving DecidableEq, Repr

/-- The catalog `activityOptions`. -/
def activityOptions : List ActivityOption :=
  [ { id := "electricity", label := "Electricity Usage", units := ["kWh", "MWh", "GWh"] },
    { id := "car", label := "Car Travel", units := ["km", "miles"] },
    { id := "bus", label := "Bus Travel", units := ["km", "miles"] },
    { id := "natural_gas", label := "Natural Gas", units := ["kWh", "MWh"] },
    { id := "rail", label := "Train Travel", units := ["km", "miles"] } ]

/-- The list `regions`. -/
def regions : List String := ["US", "EU", "UK", "CA", "CN", "AU", "IN", "GLOBAL"]

/-- The expression `option.units[0]` as a string. Every entry of the catalog
has a first unit; the empty string stands for the `undefined` of an entry
without units, which the catalog does not have. -/
def firstUnit (option : ActivityOption) : String := option.units.headD ""

/-- The expression `activityOptions.find(a => a.id === id)`; `none` is
`undefined`. -/
def findOption (id : String) : Option ActivityOption :=
  activityOptions.find? fun a => a.id == id

/-- A value held by the `parameters` object of a staged activity: the Number
`parseFloat(amount)` or the string `unit`. -/
inductive ParamValue where
  | number (n : JSNumber)
  | string (s : String)
  deriving DecidableEq, Repr

/-- A staged activity, the object `newActivity`. `parameters` lists the own
properties of the object in the order of their creation. -/
structure Activity where
  name : String
  activity_type : String
  parameters : List (String × ParamValue)
  region : String
  deriving DecidableEq, Repr

/-- The state cells of `App`, and the request a running `calculateEmissions`
has sent and not yet had answered (`inFlight`: the `activities` it
serialised). -/
structure State where
  activities : List Activity
  selectedActivity : String
  amount : String
  unit : String
  region : String
  results : JSValue
  loading : Bool
  error : Option String
  inFlight : Option (List Activity)

/-- The state at mount: the initial values of the `useState` cells. -/
def State.initial : State :=
  { activities := []
    selectedActivity := ""
    amount := ""
    unit := "kWh"
    region := "US"
    results := .null
    loading := false
    error := none
    inFlight := none }

/-- What an event handler leaves: the state with the updates it made, and the
error it threw, if it threw. -/
structure Handled where
  state : State
  thrown : Option JSError

/-! ## The component `App`: handlers -/

/-- The handler `handleAddActivity`. -/
def handleAddActivity (s : State) : Handled :=
  if s.selectedActivity = "" ∨ s.amount = "" then ⟨s, none⟩
  else
    match findOption s.selectedActivity with
    | none => ⟨s, some (typeErrorReading "undefined" "units")⟩
    | some selectedOption =>
      let isEnergy : Bool :=
        selectedOption.units.head? == some "kWh" ||
        selectedOption.units.head? == some "MWh" ||
        selectedOption.units.head? == some "GWh"
      let paramType := if isEnergy then "energy" else "distance"
      let newActivity : Activity :=
        { name := selectedOption.label
          activity_type := s.selectedActivity
          parameters :=
            setProperty (setProperty [] paramType (.number (parseFloat s.amount)))
              (paramType ++ "_unit") (.string s.unit)
          region := s.region }
      ⟨{ s with
          activities := s.activities ++ [newActivity]
          selectedActivity := ""
          amount := ""
          unit := firstUnit (activityOptions.get ⟨0, by decide⟩) }, none⟩

/-- The handler `removeActivity`. -/
def removeActivity (s : State) (index : Int) : State :=
  let updatedActivities := (splice s.activities index 1).2
  { s with activities := updatedActivities }

/-- The `onChange` handler of the activity select, on `e.target.value`. -/
def onActivityChange (s : State) (newActivity : String) : Handled :=
  let s1 := { s with selectedActivity := newActivity }
  if newActivity ≠ "" then
    match findOption newActivity with
    | none => ⟨s1, some (typeErrorReading "undefined" "units")⟩
    | some option => ⟨{ s1 with unit := firstUnit option }, none⟩
  else ⟨s1, none⟩

/-- The `onChange` handler of the amount input. -/
def onAmountChange (s : State) (value : String) : State := { s with amount := value }

/-- The `onChange` handler of the unit select. -/
def onUnitChange (s : State) (value : String) : State := { s with unit := value }

/-- The `onChange` handler of the region select. -/
def onRegionChange (s : State) (value : String) : State := { s with region := value }

/-! ## The component `App`: `calculateEmissions` -/

/-- A Response as `calculateEmissions` reads it: `status`, `statusText` and
the text of the body. -/
structure Response where
  status : Nat
  statusText : String
  body : String
  deriving DecidableEq, Repr

/-- The property `response.ok`: a status from 200 to 299. -/
def Response.ok (r : Response) : Bool := 200 ≤ r.status && r.status ≤ 299

/-- How the awaited part of `calculateEmissions` ends: `fetch` or
`response.text()` rejects with an error, or the response arrives with its
body read. -/
inductive FetchOutcome where
  | rejected (e : JSError)
  | fulfilled (response : Response)
  deriving DecidableEq, Repr

/-- The expression `errorData.error`: a TypeError on `null` (or `undefined`),
the own property of an object, `undefined` where there is none. -/
def readError : JSValue → Except JSError JSValue
  | .undefined => .error (typeErrorReading "undefined" "error")
  | .null => .error (typeErrorReading "null" "error")
  | .object props => .ok ((getOwnProperty props "error").getD .undefined)
  | _ => .ok .undefined

/-- The value of `errorMessage` when `throw new Error(errorMessage)` is
reached, for a response that is not ok. -/
def errorMessageOf (response : Response) : JSValue :=
  let errorMessage := "Calculation failed"
  let fallback : JSValue :=
    .string (errorMessage ++ ": " ++ toString response.status ++ " - " ++ response.statusText)
  match JSON.parse response.body with
  | .error _ => fallback
  | .ok errorData =>
    match readError errorData with
    | .error _ => fallback
    | .ok v => if toBoolean v then v else .string errorMessage

/-- The expression `new Error(value)`, or the TypeError that ToString throws
on the way. -/
def newError (value : JSValue) : JSError :=
  match toStringJS value with
  | .ok message => { name := "Error", message := message }
  | .error e => e

/-- The body of the `try` of `calculateEmissions` from the `await`s on: the
parsed `data`, or what is thrown. -/
def receive : FetchOutcome → Except JSError JSValue
  | .rejected e => .error e
  | .fulfilled response =>
    if !response.ok then .error (newError (errorMessageOf response))
    else JSON.parse response.body

/-- The handler `calculateEmissions` up to its first `await`: `loading` is
set, `error` is cleared, the request is sent with the current `activities`. -/
def calculateEmissionsStart (s : State) : State :=
  { s with loading := true, error := none, inFlight := some s.activities }

/-- The handler `calculateEmissions` from the `await`s on: `setResults(data)`
or, in the `catch`, `setError(error.message)`; `setLoading(false)` in the
`finally`. -/
def calculateEmissionsEnd (s : State) (outcome : FetchOutcome) : State :=
  match receive outcome with
  | .ok data => { s with results := data, loading := false, inFlight := none }
  | .error e => { s with error := some e.message, loading := false, inFlight := none }

/-- One run of `calculateEmissions` with nothing in between. -/
def calculateEmissions (s : State) (outcome : FetchOutcome) : State :=
  calculateEmissionsEnd (calculateEmissionsStart s) outcome

/-! ## The component `App`: events -/

/-- What the user and the network can do to the component. -/
inductive Event where
  | selectActivity (value : String)
  | editAmount (value : String)
  | chooseUnit (value : String)
  | chooseRegion (value : String)
  | add
  | remove (index : Nat)
  | startSubmission
  | submissionCompletes (outcome : FetchOutcome)
  deriving DecidableEq, Repr

/-- Whether the rendered component offers the event: the activity select
lists the blank option and the catalog ids; the unit select is disabled while
no activity is selected and lists the units of the selected one; the region
select lists `regions`; a remove button stands next to each staged activity;
the calculate button is rendered while the list is not empty and disabled
while `loading`; a submission completes only when one is in flight. The
amount input is taken to deliver any string. -/
def Event.offered (s : State) : Event → Bool
  | .selectActivity value => value == "" || (activityOptions.map (·.id)).contains value
  | .editAmount _ => true
  | .chooseUnit value =>
    s.selectedActivity != "" &&
      match findOption s.selectedActivity with
      | some option => option.units.contains value
      | none => false
  | .chooseRegion value => regions.contains value
  | .add => true
  | .remove index => decide (index < s.activities.length)
  | .startSubmission => decide (0 < s.activities.length) && !s.loading
  | .submissionCompletes _ => s.inFlight.isSome

/-- The state after an event. An error thrown by a handler is reported and
the updates made before it stay. -/
def step (s : State) : Event → State
  | .selectActivity value => (onActivityChange s value).state
  | .editAmount value => onAmountChange s value
  | .chooseUnit value => onUnitChange s value
  | .chooseRegion value => onRegionChange s value
  | .add => (handleAddActivity s).state
  | .remove index => removeActivity s index
  | .startSubmission => calculateEmissionsStart s
  | .submissionCompletes outcome => calculateEmissionsEnd s outcome

/-- The state after a sequence of events. -/
def run (s : State) (events : List Event) : State := events.foldl step s

/-- The states the component can be in: those that offered events lead to
from the state at mount. -/
inductive Reachable : State → Prop where
  | initial : Reachable State.initial
  | step {s : State} (e : Event) : Reachable s → e.offered s = true → Reachable (step s e)

/-! ## States, responses and predicates the statements use -/

/-- Scenario A: electricity, amount "100", unit "kWh", region "US". -/
def scenarioA : State :=
  { State.initial with selectedActivity := "electricity", amount := "100" }

/-- A record for the examples, told apart by its name. -/
def sampleActivity (name : String) : Activity :=
  { name := name
    activity_type := "car"
    parameters := [("distance", .number (.finite 1)), ("distance_unit", .string "km")]
    region := "US" }

/-- A state with three staged activities `x0`, `x1`, `x2`. -/
def threeStaged : State :=
  { State.initial with
    activities := [sampleActivity "x0", sampleActivity "x1", sampleActivity "x2"] }

/-- A state with two staged activities. -/
def twoStaged : State :=
  { State.initial with activities := [sampleActivity "x0", sampleActivity "x1"] }

/-- A form with a catalog id selected and the amount `abc`, which is not a
number. -/
def notANumber : State :=
  { State.initial with selectedActivity := "electricity", amount := "abc" }

/-- A form with a catalog id selected and the amount `1e999`, a decimal
literal beyond the range of the doubles. -/
def overflowing : State :=
  { State.initial with selectedActivity := "electricity", amount := "1e999" }

/-- A form with nothing selected. -/
def nothingSelected : State := { threeStaged with amount := "100" }

/-- A form with a selection the catalog does not have. -/
def planeSelected : State := { threeStaged with selectedActivity := "plane", amount := "100" }

/-- A 500 response with the body `{"error":"bad input"}`. -/
def badInputResponse : Response :=
  { status := 500, statusText := "Internal Server Error", body := "\x7b\"error\":\"bad input\"\x7d" }

/-- A 500 response with the body `{}`: it parses and has no `error`. -/
def emptyObjectResponse : Response :=
  { status := 500, statusText := "Internal Server Error", body := "\x7b\x7d" }

/-- A 500 response with the body `null`. -/
def nullResponse : Response :=
  { status := 500, statusText := "Internal Server Error", body := "null" }

/-- A 200 response with the body `not json`. -/
def notJsonResponse : Response := { status := 200, statusText := "OK", body := "not json" }

/-- A 200 response with a body that parses. -/
def totalsResponse : Response :=
  { status := 200, statusText := "OK", body := "\x7b\"api_emissions\":12.5,\"unit\":\"kg\"\x7d" }

/-- The energy units the handler tests the first unit of an entry against. -/
def energyUnits : List String := ["kWh", "MWh", "GWh"]

/-- What holds of every staged record: it comes from a catalog entry, whose
label it carries, from an amount that was not empty and from a unit of that
entry; its `parameters` are the quantity and its unit, under `energy` exactly
when the unit is an energy unit. -/
def StagedRecord (r : Activity) : Prop :=
  ∃ option ∈ activityOptions, option.id = r.activity_type ∧ r.name = option.label ∧
    ∃ amount unit key, amount ≠ "" ∧ unit ∈ option.units ∧
      (key = "energy" ∨ key = "distance") ∧ (unit ∈ energyUnits ↔ key = "energy") ∧
      r.parameters = [(key, .number (parseFloat amount)), (key ++ "_unit", .string unit)]

/-- What holds of every reachable state: the unit of the form is a unit of
the selected activity, every staged record is a `StagedRecord`, and `loading`
is set exactly while a request is in flight. -/
structure Invariant (s : State) : Prop where
  unit_offered : s.selectedActivity ≠ "" →
    ∃ option, findOption s.selectedActivity = some option ∧ s.unit ∈ option.units
  staged : ∀ r ∈ s.activities, StagedRecord r
  loading_iff : s.loading = true ↔ s.inFlight.isSome = true

/-- Whether each event of the sequence is offered in the state it meets. -/
def allOffered (s : State) : List Event → Bool
  | [] => true
  | e :: rest => e.offered s && allOffered (step s e) rest

/-- The edits of the form: every event but add, remove and the two ends of a
submission. -/
def Event.isFormEdit : Event → Bool
  | .selectActivity _ => true
  | .editAmount _ => true
  | .chooseUnit _ => true
  | .chooseRegion _ => true
  | _ => false

/-- A form with a catalog id selected and no amount. -/
def emptyAmount : State :=
  { threeStaged with selectedActivity := "electricity", amount := "" }

/-- The events that stage one electricity activity and start a submission. -/
def submitOne : List Event :=
  [.selectActivity "electricity", .editAmount "100", .add, .startSubmission]

/-- The state with one staged activity and its submission in flight. -/
def oneInFlight : State := run State.initial submitOne

/-- The events that stage one electricity activity. -/
def stageOne : List Event :=
  [.selectActivity "electricity", .editAmount "100", .add]

/-- The state with one staged activity. -/
def oneStaged : State := run State.initial stageOne

/-- The events that stage a car activity in miles and then select
electricity in GWh. -/
def carThenElectricity : List Event :=
  [.selectActivity "car", .chooseUnit "miles", .editAmount "12", .add,
   .selectActivity "electricity", .chooseUnit "GWh"]

/-- The state after `carThenElectricity`. -/
def carStaged : State := run State.initial carThenElectricity

/-! ## Facts about the built-ins and the catalog -/

/-- The empty string parses to `NaN`. -/
theorem parseFloat_empty : parseFloat "" = .nan := by decide

/-- A string that parses to a finite number is not empty. -/
theorem ne_empty_of_parseFloat_finite {amount : String} {a : ℚ}
    (h : parseFloat amount = .finite a) : amount ≠ "" := by
  rintro rfl
  rw [parseFloat_empty] at h
  cases h

/-- The elements of an array parse to an array. -/
theorem parseElements_array (fuel : Nat) : ∀ (cs : List Char) (acc : List JSValue)
    (v : JSValue) (rest : List Char),
    parseElements fuel cs acc = some (v, rest) → ∃ items, v = .array items := by
  induction fuel with
  | zero => intro cs acc v rest h; simp [parseElements] at h
  | succ n ih =>
    intro cs acc v rest h
    rw [parseElements] at h
    repeat' split at h
    all_goals first | exact ih _ _ _ _ h | (cases h; exact ⟨_, rfl⟩) | cases h

/-- The members of an object parse to an object. -/
theorem parseMembers_object (fuel : Nat) : ∀ (cs : List Char) (acc : List (String × JSValue))
    (v : JSValue) (rest : List Char),
    parseMembers fuel cs acc = some (v, rest) → ∃ props, v = .object props := by
  induction fuel with
  | zero => intro cs acc v rest h; simp [parseMembers] at h
  | succ n ih =>
    intro cs acc v rest h
    cases cs with
    | nil => simp [parseMembers] at h
    | cons c t =>
      rw [parseMembers] at h
      repeat' split at h
      all_goals first | exact ih _ _ _ _ h | (cases h; exact ⟨_, rfl⟩) | cases h

/-- No JSON text denotes `undefined`. -/
theorem parseValue_ne_undefined (fuel : Nat) (cs : List Char) (v : JSValue) (rest : List Char)
    (h : parseValue fuel cs = some (v, rest)) : v ≠ .undefined := by
  cases fuel with
  | zero => simp [parseValue] at h
  | succ n =>
    cases cs with
    | nil => simp [parseValue] at h
    | cons c t =>
      rw [parseValue] at h
      repeat' split at h
      all_goals first
        | (obtain ⟨items, rfl⟩ := parseElements_array _ _ _ _ _ h; simp)
        | (obtain ⟨props, rfl⟩ := parseMembers_object _ _ _ _ _ h; simp)
        | (cases h; simp)
        | cases h

/-- The function `JSON.parse` never returns `undefined`. -/
theorem JSON.parse_ne_undefined (text : String) (data : JSValue)
    (h : JSON.parse text = .ok data) : data ≠ .undefined := by
  unfold JSON.parse at h
  split at h
  · split at h
    · cases h
      exact parseValue_ne_undefined _ _ _ _ (by assumption)
    · cases h
  · cases h

/-- The lookup finds nothing exactly when no entry has the id. -/
theorem findOption_eq_none {id : String} :
    findOption id = none ↔ ∀ option ∈ activityOptions, option.id ≠ id := by
  simp [findOption, List.find?_eq_none]

/-- The lookup finds an entry of the catalog, with the id asked for. -/
theorem findOption_some {id : String} {option : ActivityOption}
    (h : findOption id = some option) : option ∈ activityOptions ∧ option.id = id := by
  unfold findOption at h
  refine ⟨List.mem_of_find?_eq_some h, ?_⟩
  simpa using List.find?_some h

/-- The ids of the catalog are distinct: the lookup of an entry by its id
returns that entry. -/
theorem findOption_id {option : ActivityOption} (h : option ∈ activityOptions) :
    findOption option.id = some option := by
  simp only [activityOptions, List.mem_cons, List.mem_singleton, List.not_mem_nil,
    or_false] at h
  rcases h with rfl | rfl | rfl | rfl | rfl <;> decide

/-- With a start inside the array, `splice(i, 1)` leaves the array without
its element at `i`. -/
theorem splice_one_inside {α : Type} (xs : List α) (i : Int) (h0 : 0 ≤ i)
    (h1 : i < xs.length) : (splice xs i 1).2 = xs.eraseIdx i.toNat := by
  have hstart : (if i < 0 then max ((xs.length : Int) + i) 0 else min i xs.length) = i := by
    rw [if_neg (by omega)]; omega
  have hcount : min (max (1 : Int) 0) ((xs.length : Int) - i) = 1 := by omega
  simp only [splice, hstart, hcount, Int.toNat_one]
  rw [List.eraseIdx_eq_take_drop_succ]

/-- With a start at or past the end, `splice(i, 1)` leaves the array as it
is. -/
theorem splice_one_past {α : Type} (xs : List α) (i : Int) (h : (xs.length : Int) ≤ i) :
    (splice xs i 1).2 = xs := by
  have hstart : (if i < 0 then max ((xs.length : Int) + i) 0 else min i xs.length)
      = xs.length := by
    rw [if_neg (by omega)]; omega
  have hcount : min (max (1 : Int) 0) ((xs.length : Int) - xs.length) = 0 := by omega
  simp [splice, hstart, hcount]

/-- With a negative start, `splice(i, 1)` counts from the end: it leaves the
array without its element at `max (length + i) 0`. -/
theorem splice_one_negative {α : Type} (xs : List α) (i : Int) (h : i < 0) :
    (splice xs i 1).2 = xs.eraseIdx (max ((xs.length : Int) + i) 0).toNat := by
  rcases Nat.eq_zero_or_pos xs.length with hlen | hlen
  · have : xs = [] := List.length_eq_zero.mp hlen
    subst this
    simp [splice]
  · have hlt : max ((xs.length : Int) + i) 0 < xs.length := by omega
    have hcount : min (max (1 : Int) 0)
        ((xs.length : Int) - max ((xs.length : Int) + i) 0) = 1 := by omega
    simp only [splice, if_pos h, hcount, Int.toNat_one]
    rw [List.eraseIdx_eq_take_drop_succ]

/-- Every element `splice(i, 1)` leaves was in the array. -/
theorem mem_of_mem_splice {α : Type} (xs : List α) (i : Int) (x : α)
    (h : x ∈ (splice xs i 1).2) : x ∈ xs := by
  simp only [splice, List.mem_append] at h
  rcases h with h | h
  · exact List.mem_of_mem_take h
  · exact List.mem_of_mem_drop h

/-- The handler returns at once, leaving everything as it is, when no
activity is selected or the amount is empty. -/
theorem handleAddActivity_of_blank (s : State)
    (h : s.selectedActivity = "" ∨ s.amount = "") : handleAddActivity s = ⟨s, none⟩ := by
  simp [handleAddActivity, h]

/-- The handler throws, leaving everything as it is, when the selection is no
id of the catalog. -/
theorem handleAddActivity_of_unknown (s : State) (hsel : s.selectedActivity ≠ "")
    (hamount : s.amount ≠ "") (h : findOption s.selectedActivity = none) :
    handleAddActivity s = ⟨s, some (typeErrorReading "undefined" "units")⟩ := by
  simp [handleAddActivity, hsel, hamount, h]

/-- The own properties of the `parameters` object literal: two, the quantity
first. -/
theorem parameters_literal (energy : Bool) (n : JSNumber) (unit : String) :
    setProperty (setProperty [] (if energy then "energy" else "distance") (ParamValue.number n))
        ((if energy then "energy" else "distance") ++ "_unit") (ParamValue.string unit)
      = if energy then [("energy", .number n), ("energy_unit", .string unit)]
        else [("distance", .number n), ("distance_unit", .string unit)] := by
  cases energy
  · have h : ¬ ("distance" = "distance" ++ "_unit") := by decide
    simp [setProperty, h]
  · have h : ¬ ("energy" = "energy" ++ "_unit") := by decide
    simp [setProperty, h]

/-- The record the handler stages for a selection the catalog has and an
amount that is not empty. -/
theorem handleAddActivity_of_known (s : State) (option : ActivityOption)
    (hopt : findOption s.selectedActivity = some option) (hamount : s.amount ≠ "") :
    handleAddActivity s =
      ⟨{ s with
          activities := s.activities ++
            [{ name := option.label
               activity_type := s.selectedActivity
               parameters :=
                 if option.units.head? = some "kWh" ∨ option.units.head? = some "MWh" ∨
                    option.units.head? = some "GWh"
                 then [("energy", .number (parseFloat s.amount)), ("energy_unit", .string s.unit)]
                 else [("distance", .number (parseFloat s.amount)),
                       ("distance_unit", .string s.unit)]
               region := s.region }]
          selectedActivity := ""
          amount := ""
          unit := "kWh" }, none⟩ := by
  have hsel : s.selectedActivity ≠ "" := by
    intro h
    have hnone : findOption "" = none := by decide
    rw [h, hnone] at hopt
    cases hopt
  have hunit : firstUnit (activityOptions.get ⟨0, by decide⟩) = "kWh" := by decide
  simp only [handleAddActivity, hsel, hamount, or_self, if_false, hopt, hunit,
    parameters_literal]
  by_cases h1 : option.units.head? = some "kWh" <;>
    by_cases h2 : option.units.head? = some "MWh" <;>
    by_cases h3 : option.units.head? = some "GWh" <;> simp [h1, h2, h3]

/-- Claim C1. For a selection `c` that is the id of a catalog entry, an amount
that parses to a finite number `a`, any unit and any region,
`handleAddActivity` does not throw and leaves the staging list followed by one
new record: its name is the label of the entry, its `activity_type` is `c`,
its region is the region of the form, and its `parameters` has exactly the
two properties `energy: a, energy_unit: unit` when the first unit of the entry
is kWh, MWh or GWh, and `distance: a, distance_unit: unit` otherwise. -/
theorem handleAddActivity_stages_record (s : State) (option : ActivityOption) (a : ℚ)
    (hmem : option ∈ activityOptions) (hid : option.id = s.selectedActivity)
    (hparse : parseFloat s.amount = .finite a) :
    (handleAddActivity s).thrown = none ∧
    (handleAddActivity s).state.activities = s.activities ++
      [{ name := option.label
         activity_type := option.id
         parameters :=
           if option.units.head? = some "kWh" ∨ option.units.head? = some "MWh" ∨
              option.units.head? = some "GWh"
           then [("energy", .number (.finite a)), ("energy_unit", .string s.unit)]
           else [("distance", .number (.finite a)), ("distance_unit", .string s.unit)]
         region := s.region }] := by
  have hopt : findOption s.selectedActivity = some option := hid ▸ findOption_id hmem
  rw [handleAddActivity_of_known s option hopt (ne_empty_of_parseFloat_finite hparse)]
  simp [hparse, hid]

/-- Claim C1 at Scenario A: the staged record is `Electricity Usage`,
`electricity`, `energy: 100`, `energy_unit: kWh`, `US`. -/
theorem handleAddActivity_stages_record_scenarioA :
    (handleAddActivity scenarioA).thrown = none ∧
    (handleAddActivity scenarioA).state.activities =
      [{ name := "Electricity Usage"
         activity_type := "electricity"
         parameters := [("energy", .number (.finite 100)), ("energy_unit", .string "kWh")]
         region := "US" }] :=
  handleAddActivity_stages_record scenarioA
    { id := "electricity", label := "Electricity Usage", units := ["kWh", "MWh", "GWh"] } 100
    (by decide) (by decide) (by decide)

/-- Claim C2 fails as stated: the index `-1` is out of range, and
`removeActivity(-1)` on `[x0, x1, x2]` removes the last entry instead of
leaving the list as it is. -/
theorem removeActivity_negative_index_removes :
    (removeActivity threeStaged (-1)).activities = [sampleActivity "x0", sampleActivity "x1"] ∧
    (removeActivity threeStaged (-1)).activities ≠ threeStaged.activities := by
  decide

/-- Claim C2, amended. With `N` the length of the staging list:
`removeActivity(i)` for `0 ≤ i < N` leaves the list without its entry at `i`,
one shorter; for `i ≥ N` it leaves the list as it is; for `i < 0` it counts
from the end, as `splice` does, and leaves the list without its entry at
`max (N + i) 0`. The other state cells are never touched. -/
theorem removeActivity_spec (s : State) (i : Int) :
    (0 ≤ i → i < s.activities.length →
      (removeActivity s i).activities = s.activities.eraseIdx i.toNat ∧
      (removeActivity s i).activities = s.activities.take i.toNat ++ s.activities.drop (i.toNat + 1) ∧
      (removeActivity s i).activities.length = s.activities.length - 1) ∧
    ((s.activities.length : Int) ≤ i → (removeActivity s i).activities = s.activities) ∧
    (i < 0 → (removeActivity s i).activities =
      s.activities.eraseIdx (max ((s.activities.length : Int) + i) 0).toNat) ∧
    removeActivity s i = { s with activities := (removeActivity s i).activities } := by
  refine ⟨fun h0 h1 => ?_, fun h => ?_, fun h => ?_, rfl⟩
  · have h := splice_one_inside s.activities i h0 h1
    refine ⟨h, ?_, ?_⟩
    · simp only [removeActivity, h, List.eraseIdx_eq_take_drop_succ]
    · simp only [removeActivity, h]
      rw [List.length_eraseIdx]
      rw [if_pos (by omega)]
  · exact splice_one_past s.activities i h
  · exact splice_one_negative s.activities i h

/-- Claim C2, amended, at Scenario E and at the ends: removing index 1 from
`[x0, x1, x2]` leaves `[x0, x2]`, index 3 leaves the list as it is, index
`-3` removes the first entry. -/
theorem removeActivity_spec_scenarioE :
    (removeActivity threeStaged 1).activities = [sampleActivity "x0", sampleActivity "x2"] ∧
    (removeActivity threeStaged 3).activities = threeStaged.activities ∧
    (removeActivity threeStaged (-3)).activities = [sampleActivity "x1", sampleActivity "x2"] :=
  ⟨((removeActivity_spec threeStaged 1).1 (by decide) (by decide)).1,
   (removeActivity_spec threeStaged 3).2.1 (by decide),
   (removeActivity_spec threeStaged (-3)).2.2.1 (by decide)⟩

/-- Claim C3 fails as stated: the amount `abc` does not parse to a finite
number (it parses to `NaN`), and `handleAddActivity` stages a record all the
same, with `NaN` for its amount; the list is not as it was. Likewise the
amount `1e999` parses to `Infinity`, and a record with that amount is
staged. -/
theorem handleAddActivity_stages_nan :
    ((parseFloat notANumber.amount).isFinite = false ∧
      parseFloat notANumber.amount = .nan ∧
      (handleAddActivity notANumber).state.activities =
        [{ name := "Electricity Usage"
           activity_type := "electricity"
           parameters := [("energy", .number .nan), ("energy_unit", .string "kWh")]
           region := "US" }] ∧
      (handleAddActivity notANumber).state.activities ≠ notANumber.activities) ∧
    ((parseFloat overflowing.amount).isFinite = false ∧
      parseFloat overflowing.amount = .posInf ∧
      (handleAddActivity overflowing).state.activities =
        [{ name := "Electricity Usage"
           activity_type := "electricity"
           parameters := [("energy", .number .posInf), ("energy_unit", .string "kWh")]
           region := "US" }]) :=
  ⟨by decide, by decide!⟩

/-- Claim C4. For a selection that is empty or is the id of no catalog entry,
whatever the amount, the unit and the region, `handleAddActivity` stages
nothing: the state after it, the staging list with it, is the state before.
It returns silently when the selection or the amount is empty and throws a
TypeError (on `selectedOption.units`) otherwise. -/
theorem handleAddActivity_refuses_unknown (s : State)
    (h : s.selectedActivity = "" ∨ ∀ option ∈ activityOptions, option.id ≠ s.selectedActivity) :
    (handleAddActivity s).state = s ∧
    (handleAddActivity s).state.activities = s.activities ∧
    ((s.selectedActivity = "" ∨ s.amount = "") → (handleAddActivity s).thrown = none) ∧
    ((s.selectedActivity ≠ "" ∧ s.amount ≠ "") →
      (handleAddActivity s).thrown = some (typeErrorReading "undefined" "units")) := by
  by_cases hblank : s.selectedActivity = "" ∨ s.amount = ""
  · rw [handleAddActivity_of_blank s hblank]
    refine ⟨rfl, rfl, fun _ => rfl, fun hne => ?_⟩
    rcases hblank with hb | hb
    · exact absurd hb hne.1
    · exact absurd hb hne.2
  · have hsel : s.selectedActivity ≠ "" := fun hb => hblank (Or.inl hb)
    have hamount : s.amount ≠ "" := fun hb => hblank (Or.inr hb)
    have hnone : findOption s.selectedActivity = none := by
      rcases h with h | h
      · exact absurd h hsel
      · exact findOption_eq_none.mpr h
    rw [handleAddActivity_of_unknown s hsel hamount hnone]
    exact ⟨rfl, rfl, fun hb => absurd hb hblank, fun _ => rfl⟩

/-- Claim C4 with nothing selected and with the selection `plane`: the three
staged activities stay as they are. -/
theorem handleAddActivity_refuses_unknown_examples :
    (handleAddActivity nothingSelected).state.activities = threeStaged.activities ∧
    (handleAddActivity planeSelected).state.activities = threeStaged.activities ∧
    (handleAddActivity planeSelected).thrown = some (typeErrorReading "undefined" "units") :=
  ⟨(handleAddActivity_refuses_unknown nothingSelected (Or.inl rfl)).2.1,
   (handleAddActivity_refuses_unknown planeSelected (Or.inr (by decide))).2.1,
   (handleAddActivity_refuses_unknown planeSelected (Or.inr (by decide))).2.2.2
     ⟨by decide, by decide⟩⟩

/-! ## `calculateEmissions` -/

/-- A run of `calculateEmissions` that ends in the `catch`. -/
theorem calculateEmissions_of_error (s : State) (outcome : FetchOutcome) (e : JSError)
    (h : receive outcome = .error e) :
    calculateEmissions s outcome =
      { s with error := some e.message, loading := false, inFlight := none } := by
  simp [calculateEmissions, calculateEmissionsEnd, calculateEmissionsStart, h]

/-- A run of `calculateEmissions` that reaches `setResults(data)`. -/
theorem calculateEmissions_of_data (s : State) (outcome : FetchOutcome) (data : JSValue)
    (h : receive outcome = .ok data) :
    calculateEmissions s outcome =
      { s with results := data, error := none, loading := false, inFlight := none } := by
  simp [calculateEmissions, calculateEmissionsEnd, calculateEmissionsStart, h]

/-- A response that is not ok always ends in the `catch`, with the message of
`new Error(errorMessage)`. -/
theorem receive_not_ok (response : Response) (h : response.ok = false) :
    receive (.fulfilled response) = .error (newError (errorMessageOf response)) := by
  simp [receive, h]

/-- Claim C5. For a response whose status is not a success,
`calculateEmissions` stores an error message and leaves `results` as it was.
The message is `e` when the body parses to an object whose `error` property is
the non-empty string `e`, and `Calculation failed: <status> - <statusText>`
when the body does not parse. -/
theorem calculateEmissions_remote_error (s : State) (response : Response)
    (h : response.ok = false) :
    (calculateEmissions s (.fulfilled response)).results = s.results ∧
    (∃ message, (calculateEmissions s (.fulfilled response)).error = some message) ∧
    (∀ props e, JSON.parse response.body = .ok (.object props) →
      getOwnProperty props "error" = some (.string e) → e ≠ "" →
      (calculateEmissions s (.fulfilled response)).error = some e) ∧
    (∀ err, JSON.parse response.body = .error err →
      (calculateEmissions s (.fulfilled response)).error =
        some ("Calculation failed: " ++ toString response.status ++ " - " ++
          response.statusText)) := by
  rw [calculateEmissions_of_error s _ _ (receive_not_ok response h)]
  refine ⟨rfl, ⟨_, rfl⟩, fun props e hparse hprop hne => ?_, fun err hparse => ?_⟩
  · simp [errorMessageOf, hparse, readError, hprop, toBoolean, hne, newError, toStringJS]
  · simp [errorMessageOf, hparse, newError, toStringJS]

/-- Claim C5 at Scenario C: status 500 with the body `{"error":"bad input"}`
surfaces the message `bad input`. -/
theorem calculateEmissions_remote_error_scenarioC :
    (calculateEmissions threeStaged (.fulfilled badInputResponse)).error = some "bad input" :=
  (calculateEmissions_remote_error threeStaged badInputResponse (by decide)).2.2.1
    [("error", .string "bad input")] "bad input" (by rfl) (by rfl) (by decide)

/-- Claim C6 fails as stated: for a 500 response with the body `{}`, which
parses and has no `error` property, the message is the bare text
`Calculation failed`, with neither the status code nor the status text. -/
theorem calculateEmissions_no_error_field_message :
    JSON.parse emptyObjectResponse.body = .ok (.object []) ∧
    (calculateEmissions threeStaged (.fulfilled emptyObjectResponse)).error
      = some "Calculation failed" ∧
    (calculateEmissions threeStaged (.fulfilled emptyObjectResponse)).error
      ≠ some "Calculation failed: 500 - Internal Server Error" := by
  refine ⟨by rfl, by decide, by decide⟩

/-- Claim C6, amended. For a response whose status is not a success and whose
body parses to a value other than `null` with no `error` property (an object
without that key, or an array, a string, a number or a boolean), the message
is exactly `Calculation failed`: the status code and the status text are not
part of it. They are only when the body parses to `null`, as when it does not
parse. -/
theorem calculateEmissions_no_error_field (s : State) (response : Response)
    (h : response.ok = false) :
    (∀ data, JSON.parse response.body = .ok data → data ≠ .null →
      (∀ props, data = .object props → getOwnProperty props "error" = none) →
      (calculateEmissions s (.fulfilled response)).error = some "Calculation failed") ∧
    (JSON.parse response.body = .ok .null →
      (calculateEmissions s (.fulfilled response)).error =
        some ("Calculation failed: " ++ toString response.status ++ " - " ++
          response.statusText)) := by
  rw [calculateEmissions_of_error s _ _ (receive_not_ok response h)]
  refine ⟨fun data hparse hnull hprops => ?_, fun hparse => ?_⟩
  · have hundef := JSON.parse_ne_undefined _ _ hparse
    have hread : readError data = .ok .undefined := by
      cases data with
      | undefined => exact absurd rfl hundef
      | null => exact absurd rfl hnull
      | object props => simp [readError, hprops props rfl]
      | _ => rfl
    simp [errorMessageOf, hparse, hread, toBoolean, newError, toStringJS]
  · simp [errorMessageOf, hparse, readError, newError, toStringJS]

/-- Claim C6, amended, at the bodies `{}` and `null`. -/
theorem calculateEmissions_no_error_field_examples :
    (calculateEmissions threeStaged (.fulfilled emptyObjectResponse)).error
      = some "Calculation failed" ∧
    (calculateEmissions threeStaged (.fulfilled nullResponse)).error
      = some "Calculation failed: 500 - Internal Server Error" :=
  ⟨(calculateEmissions_no_error_field threeStaged emptyObjectResponse (by decide)).1
      (.object []) (by rfl) (by simp) (fun props hp => by cases hp; rfl),
   (calculateEmissions_no_error_field threeStaged nullResponse (by decide)).2 (by rfl)⟩

/-- Claim C7. For a response with a success status, `calculateEmissions`
stores an error message exactly when the body does not parse, and then
`results` stays as it was; when the body parses, `results` becomes the parsed
value as it is, whatever was there before, and `error` is empty. -/
theorem calculateEmissions_success (s : State) (response : Response)
    (h : response.ok = true) :
    ((calculateEmissions s (.fulfilled response)).error ≠ none ↔
      ∃ err, JSON.parse response.body = .error err) ∧
    (∀ err, JSON.parse response.body = .error err →
      (calculateEmissions s (.fulfilled response)).error = some err.message ∧
      (calculateEmissions s (.fulfilled response)).results = s.results) ∧
    (∀ data, JSON.parse response.body = .ok data →
      (calculateEmissions s (.fulfilled response)).results = data ∧
      (calculateEmissions s (.fulfilled response)).error = none) := by
  have hreceive : receive (.fulfilled response) = JSON.parse response.body := by
    simp [receive, h]
  cases hparse : JSON.parse response.body with
  | error err =>
    rw [calculateEmissions_of_error s _ err (hreceive.trans hparse)]
    refine ⟨⟨fun _ => ⟨err, rfl⟩, fun _ => by simp⟩, fun err2 h2 => ?_, fun data h2 => ?_⟩
    · cases h2
      exact ⟨rfl, rfl⟩
    · cases h2
  | ok data =>
    rw [calculateEmissions_of_data s _ data (hreceive.trans hparse)]
    refine ⟨⟨fun hne => absurd rfl hne, fun ⟨err, herr⟩ => by cases herr⟩,
      fun err2 h2 => ?_, fun data2 h2 => ?_⟩
    · cases h2
    · cases h2
      exact ⟨rfl, rfl⟩

/-- Claim C7 at Scenario D and at a body that parses: status 200 with the
body `not json` stores an error and keeps the earlier `results`; a body that
parses replaces them and leaves no error. -/
theorem calculateEmissions_success_scenarioD :
    (calculateEmissions threeStaged (.fulfilled notJsonResponse)).error ≠ none ∧
    (calculateEmissions threeStaged (.fulfilled notJsonResponse)).results = .null ∧
    (calculateEmissions threeStaged (.fulfilled totalsResponse)).results =
      .object [("api_emissions", .number (.finite (mkRat 25 2))), ("unit", .string "kg")] ∧
    (calculateEmissions threeStaged (.fulfilled totalsResponse)).error = none :=
  ⟨(calculateEmissions_success threeStaged notJsonResponse (by decide)).1.mpr
      ⟨jsonSyntaxError, by rfl⟩,
   ((calculateEmissions_success threeStaged notJsonResponse (by decide)).2.1
      jsonSyntaxError (by rfl)).2,
   ((calculateEmissions_success threeStaged totalsResponse (by decide)).2.2 _ (by rfl)).1,
   ((calculateEmissions_success threeStaged totalsResponse (by decide)).2.2
      (.object [("api_emissions", .number (.finite (mkRat 25 2))), ("unit", .string "kg")])
      (by rfl)).2⟩

/-- The end of `calculateEmissions` leaves the staging list as it is. -/
theorem calculateEmissionsEnd_activities (s : State) (outcome : FetchOutcome) :
    (calculateEmissionsEnd s outcome).activities = s.activities := by
  unfold calculateEmissionsEnd
  cases receive outcome <;> rfl

/-- Claim C8. Whatever the staging list, empty or not, and whatever the
outcome of the call (a body that parses, one that does not, a status that is
not a success, a rejected `fetch`), `calculateEmissions` leaves the staging
list as it is: at its start, at its end, and over a whole run. -/
theorem calculateEmissions_keeps_activities (s : State) (outcome : FetchOutcome) :
    (calculateEmissionsStart s).activities = s.activities ∧
    (calculateEmissionsEnd s outcome).activities = s.activities ∧
    (calculateEmissions s outcome).activities = s.activities := by
  exact ⟨rfl, calculateEmissionsEnd_activities s outcome,
    calculateEmissionsEnd_activities (calculateEmissionsStart s) outcome⟩

/-- Claim C8 at Scenario C: two staged activities and a 500 response leave
the same two entries. -/
theorem calculateEmissions_keeps_activities_scenarioC :
    (calculateEmissions twoStaged (.fulfilled badInputResponse)).activities
      = [sampleActivity "x0", sampleActivity "x1"] :=
  (calculateEmissions_keeps_activities twoStaged (.fulfilled badInputResponse)).2.2

/-! ## Invariants of the reachable states -/

/-- The first unit of a catalog entry is one of its units. -/
theorem firstUnit_mem {option : ActivityOption} (h : option ∈ activityOptions) :
    firstUnit option ∈ option.units := by
  simp only [activityOptions, List.mem_cons, List.mem_singleton, List.not_mem_nil,
    or_false] at h
  rcases h with rfl | rfl | rfl | rfl | rfl <;> decide

/-- In the catalog the units of an entry are energy units exactly when its
first unit is. -/
theorem mem_energyUnits_iff {option : ActivityOption} (h : option ∈ activityOptions)
    {unit : String} (hu : unit ∈ option.units) :
    unit ∈ energyUnits ↔
      (option.units.head? = some "kWh" ∨ option.units.head? = some "MWh" ∨
        option.units.head? = some "GWh") := by
  simp only [activityOptions, List.mem_cons, List.mem_singleton, List.not_mem_nil,
    or_false] at h
  rcases h with rfl | rfl | rfl | rfl | rfl <;>
    simp only [List.mem_cons, List.mem_singleton, List.not_mem_nil, or_false] at hu <;>
    rcases hu with rfl | rfl | rfl <;> decide

/-- The record `handleAddActivity` stages is a `StagedRecord`, when the unit
of the form is a unit of the selected entry. -/
theorem stagedRecord_of_known (s : State) (option : ActivityOption)
    (hopt : findOption s.selectedActivity = some option) (hamount : s.amount ≠ "")
    (hunit : s.unit ∈ option.units) :
    ∀ r ∈ (handleAddActivity s).state.activities, r ∈ s.activities ∨ StagedRecord r := by
  intro r hr
  rw [handleAddActivity_of_known s option hopt hamount] at hr
  simp only [List.mem_append, List.mem_singleton] at hr
  rcases hr with hr | hr
  · exact Or.inl hr
  · right
    obtain ⟨hmem, hid⟩ := findOption_some hopt
    have hiff := mem_energyUnits_iff hmem hunit
    subst hr
    refine ⟨option, hmem, hid, rfl, s.amount, s.unit, ?_⟩
    by_cases he : option.units.head? = some "kWh" ∨ option.units.head? = some "MWh" ∨
        option.units.head? = some "GWh"
    · exact ⟨"energy", hamount, hunit, Or.inl rfl, by simp [hiff, he], by simp [he]⟩
    · exact ⟨"distance", hamount, hunit, Or.inr rfl,
        by simp only [hiff, he, false_iff]; decide, by simp [he]⟩

/-- The state at mount satisfies the invariant. -/
theorem invariant_initial : Invariant State.initial :=
  { unit_offered := fun h => absurd rfl h
    staged := fun r hr => by cases hr
    loading_iff := by decide }

/-- Every offered event keeps the invariant. -/
theorem invariant_step (s : State) (e : Event) (hs : Invariant s)
    (he : e.offered s = true) : Invariant (step s e) := by
  cases e with
  | selectActivity value =>
    by_cases hv : value = ""
    · subst hv
      exact ⟨fun h => absurd rfl h, hs.staged, hs.loading_iff⟩
    · have hmem : value ∈ activityOptions.map (·.id) := by
        simpa [Event.offered, hv] using he
      obtain ⟨option, hopt, hid⟩ := List.mem_map.mp hmem
      have hfind : findOption value = some option := hid ▸ findOption_id hopt
      have hstep : step s (.selectActivity value) =
          { s with selectedActivity := value, unit := firstUnit option } := by
        simp [step, onActivityChange, hv, hfind]
      rw [hstep]
      exact ⟨fun _ => ⟨option, hfind, firstUnit_mem hopt⟩, hs.staged, hs.loading_iff⟩
  | editAmount value => exact ⟨hs.unit_offered, hs.staged, hs.loading_iff⟩
  | chooseUnit value =>
    refine ⟨fun hsel => ?_, hs.staged, hs.loading_iff⟩
    have hsel2 : s.selectedActivity ≠ "" := hsel
    cases hfind : findOption s.selectedActivity with
    | none => simp [Event.offered, hfind] at he
    | some option =>
      refine ⟨option, hfind, ?_⟩
      simpa [Event.offered, hfind, hsel2] using he
  | chooseRegion value => exact ⟨hs.unit_offered, hs.staged, hs.loading_iff⟩
  | add =>
    by_cases hblank : s.selectedActivity = "" ∨ s.amount = ""
    · have hstep : step s .add = s := by
        simp [step, handleAddActivity_of_blank s hblank]
      rw [hstep]
      exact hs
    · have hsel : s.selectedActivity ≠ "" := fun hb => hblank (Or.inl hb)
      have hamount : s.amount ≠ "" := fun hb => hblank (Or.inr hb)
      obtain ⟨option, hfind, hunit⟩ := hs.unit_offered hsel
      refine ⟨?_, ?_, ?_⟩
      · intro h
        simp [step, handleAddActivity_of_known s option hfind hamount] at h
      · intro r hr
        rcases stagedRecord_of_known s option hfind hamount hunit r hr with h | h
        · exact hs.staged r h
        · exact h
      · simpa [step, handleAddActivity_of_known s option hfind hamount] using hs.loading_iff
  | remove index =>
    exact ⟨hs.unit_offered, fun r hr => hs.staged r (mem_of_mem_splice _ _ r hr),
      hs.loading_iff⟩
  | startSubmission =>
    exact ⟨hs.unit_offered, hs.staged, by simp [step, calculateEmissionsStart]⟩
  | submissionCompletes outcome =>
    have hstep : (step s (.submissionCompletes outcome)).activities = s.activities ∧
        (step s (.submissionCompletes outcome)).selectedActivity = s.selectedActivity ∧
        (step s (.submissionCompletes outcome)).unit = s.unit ∧
        (step s (.submissionCompletes outcome)).loading = false ∧
        (step s (.submissionCompletes outcome)).inFlight = none := by
      simp only [step, calculateEmissionsEnd]
      cases receive outcome <;> exact ⟨rfl, rfl, rfl, rfl, rfl⟩
    obtain ⟨h1, h2, h3, h4, h5⟩ := hstep
    refine ⟨?_, ?_, ?_⟩
    · rw [h2, h3]; exact hs.unit_offered
    · rw [h1]; exact hs.staged
    · rw [h4, h5]; decide

/-- Every reachable state satisfies the invariant. -/
theorem invariant_of_reachable {s : State} (h : Reachable s) : Invariant s := by
  induction h with
  | initial => exact invariant_initial
  | step e _ he ih => exact invariant_step _ e ih he

/-! ## Runs of events -/

/-- A run of offered events from a reachable state ends in a reachable
state. -/
theorem reachable_run {s : State} (hs : Reachable s) (events : List Event)
    (h : allOffered s events = true) : Reachable (run s events) := by
  induction events generalizing s with
  | nil => exact hs
  | cons e rest ih =>
    simp only [allOffered, Bool.and_eq_true] at h
    exact ih (Reachable.step e hs h.1) h.2

/-- An edit of the form touches neither the staging list nor the submission
in flight. -/
theorem step_formEdit (s : State) (e : Event) (h : e.isFormEdit = true) :
    (step s e).activities = s.activities ∧ (step s e).loading = s.loading ∧
      (step s e).inFlight = s.inFlight := by
  cases e with
  | selectActivity value =>
    simp only [step, onActivityChange]
    split
    · split <;> exact ⟨rfl, rfl, rfl⟩
    · exact ⟨rfl, rfl, rfl⟩
  | editAmount value => exact ⟨rfl, rfl, rfl⟩
  | chooseUnit value => exact ⟨rfl, rfl, rfl⟩
  | chooseRegion value => exact ⟨rfl, rfl, rfl⟩
  | add => cases h
  | remove index => cases h
  | startSubmission => cases h
  | submissionCompletes outcome => cases h

/-- A run of edits of the form touches neither the staging list nor the
submission in flight. -/
theorem run_formEdits (s : State) (events : List Event)
    (h : ∀ e ∈ events, e.isFormEdit = true) :
    (run s events).activities = s.activities ∧ (run s events).loading = s.loading ∧
      (run s events).inFlight = s.inFlight := by
  induction events generalizing s with
  | nil => exact ⟨rfl, rfl, rfl⟩
  | cons e rest ih =>
    obtain ⟨h1, h2, h3⟩ := step_formEdit s e (h e (List.mem_cons_self e rest))
    obtain ⟨k1, k2, k3⟩ := ih (step s e) (fun e2 he2 => h e2 (List.mem_cons_of_mem e he2))
    exact ⟨k1.trans h1, k2.trans h2, k3.trans h3⟩

/-! ## The claims on the reachable states -/

/-- Claim C3, amended. For every state whose amount is the empty string,
whatever the selection, `handleAddActivity` returns without staging a record:
the state, the staging list with it, is as before. An amount that is not
empty is not checked: every record of every reachable staging list holds, as
its amount, `parseFloat` of a string that is not empty, be it a finite number
or not. -/
theorem handleAddActivity_rejects_empty_amount :
    (∀ s : State, s.amount = "" →
      handleAddActivity s = ⟨s, none⟩ ∧ (handleAddActivity s).state.activities = s.activities) ∧
    (∀ s : State, Reachable s → ∀ r ∈ s.activities,
      ∃ amount key unit, amount ≠ "" ∧
        r.parameters = [(key, .number (parseFloat amount)), (key ++ "_unit", .string unit)]) := by
  refine ⟨fun s h => ?_, fun s hs r hr => ?_⟩
  · rw [handleAddActivity_of_blank s (Or.inr h)]
    exact ⟨rfl, rfl⟩
  · obtain ⟨_, _, _, _, amount, unit, key, hne, _, _, _, hparams⟩ :=
      (invariant_of_reachable hs).staged r hr
    exact ⟨amount, key, unit, hne, hparams⟩

/-- Claim C3, amended, at Scenario B: the amount `` stages no record. -/
theorem handleAddActivity_rejects_empty_amount_scenarioB :
    (handleAddActivity emptyAmount).state.activities = threeStaged.activities ∧
    (handleAddActivity emptyAmount).thrown = none :=
  ⟨(handleAddActivity_rejects_empty_amount.1 emptyAmount rfl).2,
   congrArg Handled.thrown (handleAddActivity_rejects_empty_amount.1 emptyAmount rfl).1⟩

/-- The state `oneInFlight` is reachable. -/
theorem reachable_oneInFlight : Reachable oneInFlight :=
  reachable_run Reachable.initial submitOne (by decide)

/-- Claim C9 fails as stated: with one activity staged and its submission in
flight (`loading` is true), the remove button is offered and empties the
list, and the add button stages a second record; the list a result then meets
is not the list that was submitted. -/
theorem in_flight_list_not_guarded :
    Reachable oneInFlight ∧ oneInFlight.loading = true ∧
    oneInFlight.inFlight = some oneInFlight.activities ∧
    Event.offered oneInFlight (.remove 0) = true ∧
    (step oneInFlight (.remove 0)).activities ≠ oneInFlight.activities ∧
    allOffered oneInFlight [.selectActivity "car", .editAmount "5", .add] = true ∧
    (run oneInFlight [.selectActivity "car", .editAmount "5", .add]).activities
      ≠ oneInFlight.activities ∧
    (run oneInFlight [.remove 0, .submissionCompletes (.fulfilled totalsResponse)]).activities
      ≠ oneInFlight.activities := by
  refine ⟨reachable_oneInFlight, ?_, ?_, ?_, ?_, ?_, ?_, ?_⟩ <;> decide

/-- Claim C9, amended. In every reachable state, `loading` is true exactly
while a submission is in flight, and then the calculate button is not offered:
no second submission starts. From the start of a submission, any run of edits
of the form (activity, amount, unit, region) keeps `loading` true, the request
in flight the list that was submitted, and the staging list equal to it, and
so does the completion: with no add and no remove in between, the list a
result meets is the list that was submitted. Add and remove are not guarded
by `loading`: the add button and the remove button of every staged activity
stay offered. -/
theorem in_flight_list_kept_by_edits (s : State) (hs : Reachable s) :
    (s.loading = true ↔ s.inFlight.isSome = true) ∧
    (s.loading = true → Event.offered s .startSubmission = false) ∧
    (Event.offered s .add = true ∧
      ∀ index, index < s.activities.length → Event.offered s (.remove index) = true) ∧
    (∀ (events : List Event) (outcome : FetchOutcome),
      (∀ e ∈ events, e.isFormEdit = true) →
      (run (step s .startSubmission) events).loading = true ∧
      (run (step s .startSubmission) events).inFlight = some s.activities ∧
      (run (step s .startSubmission) events).activities = s.activities ∧
      (step (run (step s .startSubmission) events) (.submissionCompletes outcome)).activities
        = s.activities) := by
  refine ⟨(invariant_of_reachable hs).loading_iff, fun h => ?_, ⟨rfl, fun index h => ?_⟩,
    fun events outcome h => ?_⟩
  · simp [Event.offered, h]
  · simp [Event.offered, h]
  · obtain ⟨h1, h2, h3⟩ := run_formEdits (step s .startSubmission) events h
    refine ⟨h2, h3, h1, ?_⟩
    exact (calculateEmissionsEnd_activities _ outcome).trans h1

/-- Claim C9, amended, with one activity staged: after the submission starts,
selecting `car` and typing an amount leave the list as submitted, and so does
the arrival of the result. -/
theorem in_flight_list_kept_by_edits_example :
    Reachable oneStaged ∧
    (step (run (step oneStaged .startSubmission) [.selectActivity "car", .editAmount "5"])
      (.submissionCompletes (.fulfilled totalsResponse))).activities = oneStaged.activities :=
  ⟨reachable_run Reachable.initial stageOne (by decide),
   ((in_flight_list_kept_by_edits oneStaged
      (reachable_run Reachable.initial stageOne (by decide))).2.2.2
      [.selectActivity "car", .editAmount "5"] (.fulfilled totalsResponse) (by decide)).2.2.2⟩

/-- Claim C10. In every reachable state, when an activity is selected the
unit of the form is one of the units of its catalog entry; and every staged
record comes from a catalog entry, has for `parameters` a quantity and its
unit, the unit one of the units of that entry, and the quantity under
`energy` exactly when the unit is kWh, MWh or GWh. -/
theorem unit_of_selected_activity (s : State) (hs : Reachable s) :
    (s.selectedActivity ≠ "" →
      ∃ option ∈ activityOptions, option.id = s.selectedActivity ∧ s.unit ∈ option.units) ∧
    (∀ r ∈ s.activities,
      ∃ option ∈ activityOptions, option.id = r.activity_type ∧
        ∃ key n unit,
          r.parameters = [(key, .number n), (key ++ "_unit", .string unit)] ∧
          unit ∈ option.units ∧
          ((unit = "kWh" ∨ unit = "MWh" ∨ unit = "GWh") ↔ key = "energy")) := by
  have hinv := invariant_of_reachable hs
  refine ⟨fun hsel => ?_, fun r hr => ?_⟩
  · obtain ⟨option, hfind, hunit⟩ := hinv.unit_offered hsel
    obtain ⟨hmem, hid⟩ := findOption_some hfind
    exact ⟨option, hmem, hid, hunit⟩
  · obtain ⟨option, hmem, hid, _, amount, unit, key, _, hunit, _, hiff, hparams⟩ :=
      hinv.staged r hr
    refine ⟨option, hmem, hid, key, parseFloat amount, unit, hparams, hunit, ?_⟩
    rw [← hiff]
    simp [energyUnits]

/-- Claim C10 after staging a car activity in miles and selecting electricity
in GWh: the record is `distance: 12, distance_unit: miles`, and the unit of
the form is a unit of electricity. -/
theorem unit_of_selected_activity_example :
    Reachable carStaged ∧
    carStaged.activities =
      [{ name := "Car Travel"
         activity_type := "car"
         parameters := [("distance", .number (.finite 12)), ("distance_unit", .string "miles")]
         region := "US" }] ∧
    carStaged.selectedActivity = "electricity" ∧ carStaged.unit = "GWh" ∧
    (∃ option ∈ activityOptions, option.id = carStaged.selectedActivity ∧
      carStaged.unit ∈ option.units) :=
  ⟨reachable_run Reachable.initial carThenElectricity (by decide), by decide, by decide,
   by decide,
   (unit_of_selected_activity carStaged
      (reachable_run Reachable.initial carThenElectricity (by decide))).1 (by decide)⟩

end CarbonFootprint
